import Mathlib

/-!
Verification of the project-slider feature of the `my-first-site` repository.

The embedding covers:
* the Notion record shapes consumed by both the server route
  (`src/app/api/notion/projects/route.ts`) and the client component
  (`src/components/projects-slider.tsx`);
* the proxy's GET and POST handlers as pure functions of the environment,
  the parsed request body and the upstream response;
* the client's `transformNotionData` grouping function, modelled with an
  insertion-ordered association list (the semantics of a JavaScript `Map`);
* the client's fetch state machine (`loading`, `categories`) and the
  image-overlay state (`selectedImage`).

JavaScript truthiness is modelled explicitly: `!notionToken` is true for a
missing or empty token, `Category?.select?.name` is truthy only when the
selection is non-null and its name is non-empty, and `Link.url || undefined`
turns an empty or null URL into an absent link.
-/

set_option autoImplicit false

namespace MySite

/-- A Notion file property entry: the code uses only `file.url`. -/
structure NotionFile where
  name : String
  url : String
deriving Repr, DecidableEq

/-- A Notion rich-text entry: the code uses only `plain_text`. -/
structure NotionRichText where
  plain_text : String
deriving Repr, DecidableEq

/-- A Notion select option (`Category.select`). -/
structure NotionSelect where
  id : String
  name : String
  color : String
deriving Repr, DecidableEq

/-- The properties of a Notion page that the code consumes. -/
structure NotionProps where
  cover : List NotionFile
  link : Option String
  skills : List NotionRichText
  category : Option NotionSelect
  title : List NotionRichText
deriving Repr, DecidableEq

/-- A Notion page record as returned by the upstream database query. -/
structure NotionPage where
  id : String
  archived : Bool
  props : NotionProps
deriving Repr, DecidableEq

/-! ## Server route: `src/app/api/notion/projects/route.ts` -/

/-- The filter predicate applied by both GET and POST
(route.ts lines 100-107 and 184-191):
`!page.archived && Cover.files.length > 0 && Category.select?.name && Skills.rich_text.length > 0`.
`Category?.select?.name` is truthy only when `select` is non-null
and `name` is a non-empty string. -/
def proxyKeep (page : NotionPage) : Bool :=
  !page.archived &&
  !page.props.cover.isEmpty &&
  (match page.props.category with
   | some s => s.name != ""
   | none => false) &&
  !page.props.skills.isEmpty

/-- The JSON envelope produced by `NextResponse.json` plus the HTTP status. -/
structure ApiResponse where
  status : Nat
  success : Bool
  results : Option (List NotionPage)
  total : Option Nat
  error : Option String
deriving Repr, DecidableEq

/-- The upstream fetch outcome seen by a handler: a non-2xx response with a
status code, or a 2xx JSON payload whose `results` field is either a list or
missing/non-array (`none`). -/
inductive Upstream where
  | httpError (status : Nat)
  | payload (results : Option (List NotionPage))
deriving Repr, DecidableEq

/-- The server environment: `process.env.NOTION_TOKEN` and
`process.env.NOTION_DATABASE_ID` (each possibly unset). -/
structure Env where
  notionToken : Option String
  databaseId : Option String
deriving Repr, DecidableEq

/-- JavaScript truthiness of the credential: `!notionToken` fails it for a
missing token and for an empty-string token. -/
def tokenPresent (env : Env) : Bool :=
  match env.notionToken with
  | some t => t != ""
  | none => false

/-- A handler's observable outcome: the HTTP response and whether the
upstream API was contacted. -/
structure HandlerResult where
  response : ApiResponse
  contactedUpstream : Bool
deriving Repr, DecidableEq

/-- `GET /api/notion/projects` (route.ts lines 58-122) as a function of the
environment and the upstream outcome.  It checks the token, surfaces upstream
HTTP errors with their status, rejects a payload whose `results` is missing or
not an array, and otherwise filters and wraps the records. -/
def GET_handler (env : Env) (up : Upstream) : HandlerResult :=
  if tokenPresent env = false then
    ⟨⟨500, false, none, none, some "Notion API 토큰이 설정되지 않았습니다"⟩, false⟩
  else
    match up with
    | .httpError s =>
        ⟨⟨s, false, none, none, some ("Notion API 호출 실패: " ++ toString s)⟩, true⟩
    | .payload none =>
        ⟨⟨500, false, none, none, some "올바르지 않은 Notion 응답 형식입니다"⟩, true⟩
    | .payload (some rs) =>
        let filtered := rs.filter proxyKeep
        ⟨⟨200, true, some filtered, some filtered.length, none⟩, true⟩

/-- A sort entry of the POST body (`{property, direction}`). -/
structure NotionSort where
  property : String
  direction : String
deriving Repr, DecidableEq

/-- The parsed POST body: optional filters object and sorts array
(route.ts lines 130-133).  The shapes are inert here: the handler only
forwards them to the upstream request. -/
structure PostRequestBody where
  filters : List (String × String)
  sorts : List NotionSort
deriving Repr, DecidableEq

/-- `POST /api/notion/projects` (route.ts lines 136-206).  `request.json()`
runs before everything else; an unparsable body (`none`) throws and lands in
the catch block.  Unlike GET, the POST path does not validate the payload
shape, so a missing `results` field makes `data.results.filter` throw a
`TypeError`, also landing in the catch block. -/
def POST_handler (env : Env) (body : Option PostRequestBody) (up : Upstream) :
    HandlerResult :=
  match body with
  | none => ⟨⟨500, false, none, none, some "서버 오류가 발생했습니다"⟩, false⟩
  | some _ =>
    if tokenPresent env = false then
      ⟨⟨500, false, none, none, some "Notion API 토큰이 설정되지 않았습니다"⟩, false⟩
    else
      match up with
      | .httpError s =>
          ⟨⟨s, false, none, none, some ("Notion API 호출 실패: " ++ toString s)⟩, true⟩
      | .payload none =>
          ⟨⟨500, false, none, none, some "서버 오류가 발생했습니다"⟩, true⟩
      | .payload (some rs) =>
          let filtered := rs.filter proxyKeep
          ⟨⟨200, true, some filtered, some filtered.length, none⟩, true⟩

/-! ## Client transform: `transformNotionData` (projects-slider.tsx 149-180) -/

/-- A transformed project card (projects-slider.tsx 54-60). -/
structure Project where
  id : String
  image : String
  link : Option String
  skills : String
  category : String
deriving Repr, DecidableEq

/-- A named category with its projects (projects-slider.tsx 62-65). -/
structure ProjectCategory where
  name : String
  projects : List Project
deriving Repr, DecidableEq

/-- The client's required-field validation (projects-slider.tsx 156-158):
`!Cover.files.length || !Category.select || !Skills.rich_text.length` skips
the record.  Note it checks only that `select` is non-null, not that its
name is non-empty. -/
def clientValid (page : NotionPage) : Bool :=
  !page.props.cover.isEmpty &&
  page.props.category.isSome &&
  !page.props.skills.isEmpty

/-- The category name read by the transform (`Category.select.name`),
defaulting to `""` when the selection is absent (the code only reads it
after `clientValid` guarantees presence). -/
def catName (page : NotionPage) : String :=
  (page.props.category.map NotionSelect.name).getD ""

/-- Record-to-project mapping (projects-slider.tsx 160-166).
`image` is the first cover file's URL, `link` is `Link.url || undefined`
(so a null or empty URL yields no link), `skills` joins the plain texts
with `", "`. -/
def projectOf (page : NotionPage) : Project where
  id := page.id
  image := ((page.props.cover.head?).map NotionFile.url).getD ""
  link :=
    match page.props.link with
    | some u => if u = "" then none else some u
    | none => none
  skills := String.intercalate ", " (page.props.skills.map NotionRichText.plain_text)
  category := catName page

/-- The insertion-ordered association list standing for the JavaScript
`Map<string, Project[]>`: a new key is appended at the end, an existing
key's list is extended at its end. -/
abbrev GroupMap := List (String × List Project)

/-- One `projectMap.get(c)?.push(pr)` step, creating the key first when
absent (projects-slider.tsx 168-172). -/
def insertProject (m : GroupMap) (c : String) (pr : Project) : GroupMap :=
  if m.any (fun e => e.1 == c) then
    m.map (fun e => if e.1 == c then (e.1, e.2 ++ [pr]) else e)
  else
    m ++ [(c, [pr])]

/-- The body of the `results.forEach` loop: skip invalid records, otherwise
insert the mapped project under its category name. -/
def transformStep (m : GroupMap) (page : NotionPage) : GroupMap :=
  if clientValid page then insertProject m (catName page) (projectOf page) else m

/-- `transformNotionData` (projects-slider.tsx 149-180): fold the records
through the map, then convert `Map.entries()` — which iterates in insertion
order — into the category array. -/
def transformNotionData (results : List NotionPage) : List ProjectCategory :=
  (results.foldl transformStep []).map (fun e => ⟨e.1, e.2⟩)

/-! ### Specification-side helpers for the grouping -/

/-- The keys of the group map, in insertion order. -/
def groupKeys (m : GroupMap) : List String :=
  m.map (fun e => e.1)

/-- The project list stored under a key, `[]` when the key is absent. -/
def groupLookup (m : GroupMap) (c : String) : List Project :=
  ((m.find? (fun e => e.1 == c)).map (fun e => e.2)).getD []

/-- Append a key at the end unless it is already present. -/
def insertNew (ks : List String) (c : String) : List String :=
  if c ∈ ks then ks else ks ++ [c]

/-- The first-seen-order deduplication of a list of category names. -/
def firstSeen (cs : List String) : List String :=
  cs.foldl insertNew []

/-- The category names of the valid records, in source order. -/
def validCats (rs : List NotionPage) : List String :=
  (rs.filter clientValid).map catName

/-- The projects of category `c`, in source order over the valid records. -/
def catProjects (rs : List NotionPage) (c : String) : List Project :=
  ((rs.filter clientValid).filter (fun p => catName p == c)).map projectOf

/-! ## Client fetch state machine (projects-slider.tsx 88-146) -/

/-- The fetch-relevant component state: `loading` and `categories`
(projects-slider.tsx 89, 91). -/
structure ClientState where
  loading : Bool
  categories : List ProjectCategory
deriving Repr, DecidableEq

/-- The initial state: `useState(false)` for `loading` and `useState([])`
for `categories`. -/
def initialClientState : ClientState := ⟨false, []⟩

/-- The settled fetch as observed by `loadProjectsFromNotion`: a thrown
network/JSON error, or a parsed response body with its `success` flag. -/
inductive FetchOutcome where
  | networkError
  | response (success : Bool) (results : List NotionPage) (error : Option String)
deriving Repr, DecidableEq

/-- `setLoading(true)` at the top of `loadProjectsFromNotion`. -/
def startFetch (st : ClientState) : ClientState :=
  { st with loading := true }

/-- The effect of a whole `loadProjectsFromNotion` call: the resulting
component state, the console-error log lines, and how many fetch requests
were issued. -/
structure LoadResult where
  state : ClientState
  logs : List String
  fetches : Nat
deriving Repr, DecidableEq

/-- The remainder of `loadProjectsFromNotion` after the fetch settles
(projects-slider.tsx 131-145): on `success` transform and store the
categories; otherwise log; a thrown error is caught and logged; the
`finally` block always runs `setLoading(false)`. -/
def settleFetch (st : ClientState) (outcome : FetchOutcome) :
    ClientState × List String :=
  match outcome with
  | .networkError =>
      ⟨{ st with loading := false }, ["Notion API 호출 실패"]⟩
  | .response true results _ =>
      ⟨⟨false, transformNotionData results⟩, []⟩
  | .response false _ err =>
      ⟨{ st with loading := false },
       ["Notion 데이터 로드 실패: " ++ err.getD "undefined"]⟩

/-- The whole `loadProjectsFromNotion` call: `setLoading(true)`, exactly one
fetch (the body contains a single `await fetch` and no retry loop), then the
settlement logic. -/
def loadProjectsFromNotion (st : ClientState) (outcome : FetchOutcome) :
    LoadResult :=
  ⟨(settleFetch (startFetch st) outcome).1,
   (settleFetch (startFetch st) outcome).2, 1⟩

/-- Whether the settled outcome is a failure (network error or
`success: false` body). -/
def fetchFailed (outcome : FetchOutcome) : Bool :=
  match outcome with
  | .networkError => true
  | .response success _ _ => !success

/-- The spinner block is rendered iff `loading` is true
(projects-slider.tsx 245). -/
def showsSpinner (st : ClientState) : Bool :=
  st.loading

/-- The empty-state block is rendered iff `!loading && categories.length === 0`
(projects-slider.tsx 253). -/
def showsEmptyState (st : ClientState) : Bool :=
  !st.loading && st.categories.isEmpty

/-! ## Overlay state and card interaction (projects-slider.tsx 92, 118-126, 322-340, 352-393) -/

/-- Events acting on `selectedImage`.  `cardImageClick` is the `onClick` of a
link-less card; `keydown` is the global listener; the two click dismissals
are the backdrop's and the close button's `onClick`; `innerContentClick` is a
click on the modal container, whose handler only calls `stopPropagation`. -/
inductive OverlayEvent where
  | cardImageClick (url : String)
  | backdropClick
  | closeButtonClick
  | keydown (key : String)
  | innerContentClick
deriving Repr, DecidableEq

/-- The transition of the single `selectedImage` state under each event. -/
def overlayStep (s : Option String) (e : OverlayEvent) : Option String :=
  match e with
  | .cardImageClick url => some url
  | .backdropClick => none
  | .closeButtonClick => none
  | .keydown key => if key = "Escape" then none else s
  | .innerContentClick => s

/-- How a project card is rendered (projects-slider.tsx 322-340):
`project.link ? <a href=link target=_blank> : <div onClick=setSelectedImage(image)>`. -/
inductive CardElement where
  | hyperlink (href : String)
  | imageOpener (imageUrl : String)
deriving Repr, DecidableEq

/-- The card chosen for a project. -/
def renderCard (p : Project) : CardElement :=
  match p.link with
  | some u => .hyperlink u
  | none => .imageOpener p.image

/-- Clicking a card: a hyperlink card leaves the overlay untouched (it
navigates externally); a link-less card opens the overlay on its image. -/
def cardClick (p : Project) (s : Option String) : Option String :=
  match p.link with
  | some _ => s
  | none => some p.image

/-- The proxy's required-field checks with the `archived` condition removed
(route.ts lines 103-105), for comparison with the client's validation. -/
def proxyFieldsOk (page : NotionPage) : Bool :=
  !page.props.cover.isEmpty &&
  (match page.props.category with
   | some s => s.name != ""
   | none => false) &&
  !page.props.skills.isEmpty

/-! ### Concrete sample records used in witnesses and counterexamples -/

/-- A cover file. -/
def coverFile : NotionFile := ⟨"cover.png", "https://files.example/img1.png"⟩

/-- A skills rich-text entry. -/
def skillText : NotionRichText := ⟨"React"⟩

/-- The `Web` category selection. -/
def selWeb : NotionSelect := ⟨"sel-1", "Web", "blue"⟩

/-- The `Mobile` category selection. -/
def selMobile : NotionSelect := ⟨"sel-2", "Mobile", "red"⟩

/-- A valid `Web` record with an external link. -/
def page1 : NotionPage :=
  ⟨"id-1", false, ⟨[coverFile], some "https://example.com", [skillText], some selWeb, []⟩⟩

/-- A valid `Mobile` record without a link. -/
def page2 : NotionPage :=
  ⟨"id-2", false, ⟨[coverFile], none, [skillText], some selMobile, []⟩⟩

/-- A valid `Web` record whose Link URL is the empty string. -/
def page3 : NotionPage :=
  ⟨"id-3", false, ⟨[coverFile], some "", [skillText], some selWeb, []⟩⟩

/-- A record whose category selection is present but has an empty name:
the client's validation accepts it, the proxy's filter rejects it. -/
def pageEmptyCat : NotionPage :=
  ⟨"id-4", false, ⟨[coverFile], none, [skillText], some ⟨"sel-3", "", "gray"⟩, []⟩⟩

/-! ## Lemmas about the grouping map -/

theorem any_key_iff (m : GroupMap) (c : String) :
    m.any (fun e => e.1 == c) = true ↔ c ∈ groupKeys m := by
  rw [List.any_eq_true]
  constructor
  · rintro ⟨e, he, hbe⟩
    exact (eq_of_beq hbe) ▸ List.mem_map_of_mem _ he
  · intro hc
    rcases List.mem_map.mp hc with ⟨e, he, hek⟩
    exact ⟨e, he, by simp [hek]⟩

theorem bump_key (c : String) (pr : Project) (x : String × List Project) :
    (if x.1 == c then (x.1, x.2 ++ [pr]) else x).1 = x.1 := by
  by_cases hx : (x.1 == c) = true
  · rw [if_pos hx]
  · rw [if_neg hx]

theorem find?_map_bump (m : GroupMap) (c c' : String) (pr : Project) :
    (m.map (fun e => if e.1 == c then (e.1, e.2 ++ [pr]) else e)).find?
        (fun e => e.1 == c') =
      (m.find? (fun e => e.1 == c')).map
        (fun e => if e.1 == c then (e.1, e.2 ++ [pr]) else e) := by
  induction m with
  | nil => rfl
  | cons a t ih =>
    by_cases ha : (a.1 == c') = true
    · have ha2 : (fun e : String × List Project => e.1 == c')
          (if a.1 == c then (a.1, a.2 ++ [pr]) else a) = true := by
        show ((if a.1 == c then (a.1, a.2 ++ [pr]) else a).1 == c') = true
        rw [bump_key]
        exact ha
      rw [List.map_cons,
        @List.find?_cons_of_pos _ (fun e : String × List Project => e.1 == c') _ _ ha2,
        @List.find?_cons_of_pos _ (fun e : String × List Project => e.1 == c') _ _ ha]
      simp
    · have ha2 : ¬ (fun e : String × List Project => e.1 == c')
          (if a.1 == c then (a.1, a.2 ++ [pr]) else a) = true := by
        show ¬ ((if a.1 == c then (a.1, a.2 ++ [pr]) else a).1 == c') = true
        rw [bump_key]
        exact ha
      rw [List.map_cons,
        @List.find?_cons_of_neg _ (fun e : String × List Project => e.1 == c') _ _ ha2,
        @List.find?_cons_of_neg _ (fun e : String × List Project => e.1 == c') _ _ ha, ih]

theorem groupKeys_insertProject (m : GroupMap) (c : String) (pr : Project) :
    groupKeys (insertProject m c pr) = insertNew (groupKeys m) c := by
  unfold insertProject insertNew
  by_cases h : m.any (fun e => e.1 == c) = true
  · rw [if_pos h, if_pos ((any_key_iff m c).mp h)]
    unfold groupKeys
    rw [List.map_map]
    apply List.map_congr_left
    intro e _
    exact bump_key c pr e
  · rw [if_neg h, if_neg (fun hc => h ((any_key_iff m c).mpr hc))]
    unfold groupKeys
    rw [List.map_append]
    rfl

theorem groupLookup_insertProject_self (m : GroupMap) (c : String) (pr : Project) :
    groupLookup (insertProject m c pr) c = groupLookup m c ++ [pr] := by
  unfold insertProject
  by_cases h : m.any (fun e => e.1 == c) = true
  · rw [if_pos h]
    rcases List.any_eq_true.mp h with ⟨e0, he0, he0k⟩
    have hsome : (m.find? (fun e => e.1 == c)).isSome := by
      rw [List.find?_isSome]
      exact ⟨e0, he0, he0k⟩
    rcases Option.isSome_iff_exists.mp hsome with ⟨e, hfind⟩
    have hek : (e.1 == c) = true := by
      have h0 := List.find?_some hfind
      exact h0
    have hek2 : e.1 = c := eq_of_beq hek
    unfold groupLookup
    rw [find?_map_bump, hfind]
    simp [hek2]
  · rw [if_neg h]
    have hnone : m.find? (fun e => e.1 == c) = none := by
      rw [List.find?_eq_none]
      intro x hx hpx
      exact h (List.any_eq_true.mpr ⟨x, hx, hpx⟩)
    unfold groupLookup
    rw [List.find?_append, hnone]
    simp

theorem groupLookup_insertProject_ne (m : GroupMap) (c c' : String) (pr : Project)
    (hne : c' ≠ c) :
    groupLookup (insertProject m c pr) c' = groupLookup m c' := by
  unfold insertProject
  by_cases h : m.any (fun e => e.1 == c) = true
  · rw [if_pos h]
    unfold groupLookup
    rw [find?_map_bump]
    cases hfind : m.find? (fun e => e.1 == c') with
    | none => simp
    | some e =>
        have hek : e.1 = c' := by
          have h0 := List.find?_some hfind
          exact eq_of_beq h0
        have hkc : ¬ (e.1 = c) := by
          rw [hek]
          exact hne
        simp [hkc]
  · rw [if_neg h]
    unfold groupLookup
    rw [List.find?_append]
    have hsingle : ([(c, [pr])].find? (fun e => e.1 == c')) = none := by
      have hcc : (c == c') = false :=
        beq_eq_false_iff_ne.mpr (fun hcc => hne hcc.symm)
      simp [List.find?_cons, hcc]
    rw [hsingle, Option.or_none]

theorem validCats_cons (page : NotionPage) (rest : List NotionPage) :
    validCats (page :: rest) =
      if clientValid page then catName page :: validCats rest
      else validCats rest := by
  unfold validCats
  by_cases h : clientValid page = true <;> simp [List.filter_cons, h]

theorem catProjects_cons (page : NotionPage) (rest : List NotionPage) (c : String) :
    catProjects (page :: rest) c =
      if clientValid page && (catName page == c) then
        projectOf page :: catProjects rest c
      else catProjects rest c := by
  unfold catProjects
  by_cases h : clientValid page = true
  · by_cases hc : (catName page == c) = true <;>
      simp [List.filter_cons, h, hc]
  · simp [List.filter_cons, h]

theorem transformStep_valid (m : GroupMap) (page : NotionPage)
    (h : clientValid page = true) :
    transformStep m page = insertProject m (catName page) (projectOf page) := by
  unfold transformStep
  rw [if_pos h]

theorem transformStep_invalid (m : GroupMap) (page : NotionPage)
    (h : ¬ clientValid page = true) :
    transformStep m page = m := by
  unfold transformStep
  rw [if_neg h]

theorem foldl_transformStep_keys (rs : List NotionPage) :
    ∀ m : GroupMap,
      groupKeys (rs.foldl transformStep m) =
        (validCats rs).foldl insertNew (groupKeys m) := by
  induction rs with
  | nil => intro m; rfl
  | cons page rest ih =>
    intro m
    rw [List.foldl_cons, validCats_cons]
    by_cases h : clientValid page = true
    · rw [if_pos h, List.foldl_cons, ih, transformStep_valid m page h,
        groupKeys_insertProject]
    · rw [if_neg h, ih, transformStep_invalid m page h]

theorem foldl_transformStep_lookup (rs : List NotionPage) :
    ∀ (m : GroupMap) (c : String),
      groupLookup (rs.foldl transformStep m) c =
        groupLookup m c ++ catProjects rs c := by
  induction rs with
  | nil =>
    intro m c
    show groupLookup m c = groupLookup m c ++ catProjects [] c
    simp [catProjects]
  | cons page rest ih =>
    intro m c
    rw [List.foldl_cons, ih, catProjects_cons]
    by_cases h : clientValid page = true
    · by_cases hc : (catName page == c) = true
      · have hceq : catName page = c := eq_of_beq hc
        rw [transformStep_valid m page h, hceq, groupLookup_insertProject_self]
        simp [h]
      · have hne : catName page ≠ c := by simpa using hc
        rw [transformStep_valid m page h,
          groupLookup_insertProject_ne m (catName page) c (projectOf page)
            (Ne.symm hne)]
        simp [h, hc]
    · rw [transformStep_invalid m page h]
      simp [h]

theorem insertNew_nodup (ks : List String) (c : String) (h : ks.Nodup) :
    (insertNew ks c).Nodup := by
  unfold insertNew
  by_cases hc : c ∈ ks
  · rw [if_pos hc]
    exact h
  · rw [if_neg hc]
    exact List.Nodup.append h (List.nodup_singleton c)
      (fun a ha hac => hc ((List.mem_singleton.mp hac) ▸ ha))

theorem foldl_insertNew_nodup (cs : List String) :
    ∀ ks : List String, ks.Nodup → (cs.foldl insertNew ks).Nodup := by
  induction cs with
  | nil => intro ks h; exact h
  | cons c rest ih =>
    intro ks h
    rw [List.foldl_cons]
    exact ih _ (insertNew_nodup ks c h)

theorem firstSeen_nodup (cs : List String) : (firstSeen cs).Nodup :=
  foldl_insertNew_nodup cs [] List.nodup_nil

theorem insertNew_head (ks : List String) (c : String) (h : ks ≠ []) :
    (insertNew ks c).head? = ks.head? := by
  unfold insertNew
  by_cases hc : c ∈ ks
  · rw [if_pos hc]
  · rw [if_neg hc]
    cases ks with
    | nil => exact absurd rfl h
    | cons a t => rfl

theorem insertNew_ne_nil (ks : List String) (c : String) : insertNew ks c ≠ [] := by
  unfold insertNew
  by_cases hc : c ∈ ks
  · rw [if_pos hc]
    intro hnil
    rw [hnil] at hc
    exact (List.not_mem_nil c) hc
  · rw [if_neg hc]
    simp

theorem foldl_insertNew_head (cs : List String) :
    ∀ ks : List String, ks ≠ [] → (cs.foldl insertNew ks).head? = ks.head? := by
  induction cs with
  | nil => intro ks _; rfl
  | cons c rest ih =>
    intro ks h
    rw [List.foldl_cons, ih _ (insertNew_ne_nil ks c), insertNew_head ks c h]

theorem find?_eq_of_mem_nodupKeys (m : GroupMap) (e : String × List Project)
    (hm : e ∈ m) (hnd : (groupKeys m).Nodup) :
    m.find? (fun x => x.1 == e.1) = some e := by
  induction m with
  | nil => cases hm
  | cons a t ih =>
    have hnd2 : (groupKeys t).Nodup := by
      unfold groupKeys at hnd ⊢
      rw [List.map_cons] at hnd
      exact (List.nodup_cons.mp hnd).2
    have hna : a.1 ∉ groupKeys t := by
      unfold groupKeys at hnd
      rw [List.map_cons] at hnd
      exact (List.nodup_cons.mp hnd).1
    rcases List.mem_cons.mp hm with he | he
    · rw [he]
      exact @List.find?_cons_of_pos _ (fun x => x.1 == a.1) a t (by simp)
    · have he1 : e.1 ∈ groupKeys t := List.mem_map_of_mem _ he
      have hne : ¬ (fun x : String × List Project => x.1 == e.1) a = true := by
        show ¬ (a.1 == e.1) = true
        simp only [beq_iff_eq]
        exact fun hh => hna (hh ▸ he1)
      rw [@List.find?_cons_of_neg _ (fun x => x.1 == e.1) _ t hne, ih he hnd2]

theorem transform_names (rs : List NotionPage) :
    (transformNotionData rs).map (fun g => g.name) = firstSeen (validCats rs) := by
  unfold transformNotionData firstSeen
  rw [List.map_map]
  exact foldl_transformStep_keys rs []

theorem transform_mem_entries (rs : List NotionPage) (g : ProjectCategory)
    (hg : g ∈ transformNotionData rs) :
    g.projects = catProjects rs g.name := by
  unfold transformNotionData at hg
  rcases List.mem_map.mp hg with ⟨e, he, hge⟩
  have hnd : (groupKeys (rs.foldl transformStep [])).Nodup := by
    rw [foldl_transformStep_keys rs []]
    exact foldl_insertNew_nodup _ _ List.nodup_nil
  have hfind := find?_eq_of_mem_nodupKeys _ e he hnd
  have hlk : groupLookup (rs.foldl transformStep []) e.1 = e.2 := by
    unfold groupLookup
    rw [hfind]
    rfl
  have hlk2 := foldl_transformStep_lookup rs [] e.1
  have h0 : groupLookup ([] : GroupMap) e.1 = [] := rfl
  rw [hlk, h0, List.nil_append] at hlk2
  rw [← hge]
  exact hlk2

/-! ## Claim theorems -/

/-- C1: For every input list of raw records, `transformNotionData` groups the
valid records into CategoryGroups such that the category seen first among
valid records appears first in the output, each record appears in its
category's list in source order, and no two output groups share the same
category name. -/
theorem C1_transform_grouping (rs : List NotionPage) :
    ((transformNotionData rs).map (fun g => g.name)).Nodup ∧
    ((transformNotionData rs).map (fun g => g.name) = firstSeen (validCats rs)) ∧
    (∀ page rest, rs.filter clientValid = page :: rest →
      ((transformNotionData rs).map (fun g => g.name)).head? =
        some (catName page)) ∧
    (∀ g ∈ transformNotionData rs,
      g.projects =
        ((rs.filter clientValid).filter
          (fun p => catName p == g.name)).map projectOf) := by
  refine ⟨?_, transform_names rs, ?_, ?_⟩
  · rw [transform_names rs]
    exact firstSeen_nodup _
  · intro page rest hf
    rw [transform_names rs]
    unfold firstSeen validCats
    rw [hf, List.map_cons, List.foldl_cons]
    have h1 : insertNew [] (catName page) = [catName page] := by
      unfold insertNew
      rw [if_neg (List.not_mem_nil _)]
      rfl
    rw [h1, foldl_insertNew_head _ _ (by simp)]
    rfl
  · intro g hg
    exact transform_mem_entries rs g hg

/-- Witness for C1 at a concrete record list: `page1` (category `Web`) is the
first valid record of `[page1, page2, page3]`, and `Web` heads the output. -/
theorem C1_transform_grouping_witness :
    ((transformNotionData [page1, page2, page3]).map (fun g => g.name)).head? =
      some (catName page1) :=
  (C1_transform_grouping [page1, page2, page3]).2.2.1 page1 [page2, page3]
    (by decide)

/-- C9: In every CategoryGroup produced by `transformNotionData`, every
contained project's category field equals the group's name, and every
project's image field equals the URL of the first cover file of its source
record. -/
theorem C9_group_fields (rs : List NotionPage) (g : ProjectCategory)
    (p : Project) (hg : g ∈ transformNotionData rs) (hp : p ∈ g.projects) :
    p.category = g.name ∧
    ∃ page ∈ rs, clientValid page = true ∧ p = projectOf page ∧
      ∃ f, page.props.cover.head? = some f ∧ p.image = f.url := by
  have hproj := transform_mem_entries rs g hg
  rw [hproj] at hp
  unfold catProjects at hp
  rcases List.mem_map.mp hp with ⟨page, hpage, hpp⟩
  rcases List.mem_filter.mp hpage with ⟨hpage2, hcat⟩
  rcases List.mem_filter.mp hpage2 with ⟨hmem, hvalid⟩
  have hcat2 : catName page = g.name := by simpa using hcat
  constructor
  · rw [← hpp]
    show (projectOf page).category = g.name
    unfold projectOf
    exact hcat2
  · refine ⟨page, hmem, hvalid, hpp.symm, ?_⟩
    have hv := hvalid
    unfold clientValid at hv
    rw [Bool.and_eq_true, Bool.and_eq_true] at hv
    have hcov : page.props.cover.isEmpty = false := by
      have := hv.1.1
      simpa using this
    cases hcovl : page.props.cover with
    | nil =>
        simp at hcov
        exact absurd hcovl hcov
    | cons f fs =>
        refine ⟨f, rfl, ?_⟩
        rw [← hpp]
        show (projectOf page).image = f.url
        unfold projectOf
        rw [hcovl]
        rfl

/-- Witness for C9 at a concrete input: the single-record list `[page2]`
produces the group `Mobile` whose only project has matching category and
the first cover file's URL as image. -/
theorem C9_group_fields_witness :
    (projectOf page2).category =
      ({ name := "Mobile", projects := [projectOf page2] } : ProjectCategory).name ∧
    ∃ page ∈ [page2], clientValid page = true ∧ projectOf page2 = projectOf page ∧
      ∃ f, page.props.cover.head? = some f ∧ (projectOf page2).image = f.url :=
  C9_group_fields [page2] ⟨"Mobile", [projectOf page2]⟩ (projectOf page2)
    (by decide) (by decide)

theorem proxyKeep_iff (p : NotionPage) :
    proxyKeep p = true ↔
      (p.archived = false ∧ p.props.cover ≠ [] ∧
       (∃ s, p.props.category = some s ∧ s.name ≠ "") ∧
       p.props.skills ≠ []) := by
  unfold proxyKeep
  cases hc : p.props.category with
  | none => simp [hc]
  | some s =>
      simp only [hc, Bool.and_eq_true, Bool.not_eq_true', bne_iff_ne,
        List.isEmpty_eq_false, Option.some.injEq]
      constructor
      · rintro ⟨⟨⟨ha, hcov⟩, hname⟩, hsk⟩
        exact ⟨ha, hcov, ⟨s, rfl, hname⟩, hsk⟩
      · rintro ⟨ha, hcov, ⟨t, hts, hname⟩, hsk⟩
        exact ⟨⟨⟨ha, hcov⟩, hts ▸ hname⟩, hsk⟩

/-- C2 counterexample: `pageEmptyCat` is not archived, has a cover file, a
non-null category selection and a skills entry — by the claim it should
appear in the results — yet the handler filters it out (its category name is
the empty string, which is falsy). -/
theorem C2_counterexample :
    pageEmptyCat.archived = false ∧
    pageEmptyCat.props.cover ≠ [] ∧
    pageEmptyCat.props.category.isSome = true ∧
    pageEmptyCat.props.skills ≠ [] ∧
    (GET_handler ⟨some "tok", none⟩
        (.payload (some [pageEmptyCat]))).response.success = true ∧
    (GET_handler ⟨some "tok", none⟩
        (.payload (some [pageEmptyCat]))).response.results = some [] := by
  decide

/-- C2 (amended): when the token is present and the upstream payload is
well-formed, a record appears in the results iff it is not archived, has at
least one cover file, has a non-null category selection WITH A NON-EMPTY
NAME, and has at least one skills entry; the envelope is
`{success:true, results: filteredRecords, total: count}`. -/
theorem C2_get_filter (env : Env) (rs : List NotionPage)
    (htok : tokenPresent env = true) :
    (GET_handler env (.payload (some rs))).response.status = 200 ∧
    (GET_handler env (.payload (some rs))).response.success = true ∧
    (GET_handler env (.payload (some rs))).response.results =
      some (rs.filter proxyKeep) ∧
    (GET_handler env (.payload (some rs))).response.total =
      some ((rs.filter proxyKeep).length) ∧
    (∀ p, p ∈ rs.filter proxyKeep ↔
      (p ∈ rs ∧ p.archived = false ∧ p.props.cover ≠ [] ∧
       (∃ s, p.props.category = some s ∧ s.name ≠ "") ∧
       p.props.skills ≠ [])) := by
  have hne : ¬ tokenPresent env = false := by
    rw [htok]
    simp
  unfold GET_handler
  rw [if_neg hne]
  refine ⟨rfl, rfl, rfl, rfl, ?_⟩
  intro p
  rw [List.mem_filter, proxyKeep_iff]

/-- Witness for C2 (amended) at a concrete environment and record list. -/
theorem C2_get_filter_witness :
    (GET_handler ⟨some "tok", none⟩
        (.payload (some [page1, pageEmptyCat]))).response.results =
      some [page1] := by
  have h :=
    (C2_get_filter ⟨some "tok", none⟩ [page1, pageEmptyCat] (by decide)).2.2.1
  rw [h]
  decide

/-- C3 counterexample: with the token set and a malformed upstream payload
(missing `results`), GET returns the validation-error envelope while POST
with the empty-object body hits its catch block: both are 500 but the error
messages differ, so the envelopes are not identical. -/
theorem C3_counterexample :
    (POST_handler ⟨some "tok", none⟩ (some ⟨[], []⟩)
        (.payload none)).response.status = 500 ∧
    (GET_handler ⟨some "tok", none⟩ (.payload none)).response.status = 500 ∧
    (POST_handler ⟨some "tok", none⟩ (some ⟨[], []⟩)
        (.payload none)).response.error = some "서버 오류가 발생했습니다" ∧
    (GET_handler ⟨some "tok", none⟩ (.payload none)).response.error =
      some "올바르지 않은 Notion 응답 형식입니다" ∧
    (POST_handler ⟨some "tok", none⟩ (some ⟨[], []⟩)
        (.payload none)).response ≠
      (GET_handler ⟨some "tok", none⟩ (.payload none)).response := by
  decide

/-- C3 (amended): a POST whose body parses to the empty object behaves
identically to the GET for every environment and every upstream outcome
EXCEPT a malformed payload (missing/non-array `results`), where both return
status 500 with `success:false` but different error messages. -/
theorem C3_post_empty_eq_get (env : Env) (up : Upstream)
    (h : up ≠ Upstream.payload none) :
    POST_handler env (some ⟨[], []⟩) up = GET_handler env up := by
  unfold POST_handler GET_handler
  by_cases ht : tokenPresent env = false
  · simp [ht]
  · cases up with
    | httpError s => simp [ht]
    | payload o =>
        cases o with
        | none => exact absurd rfl h
        | some rs => simp [ht]

/-- Witness for C3 (amended) at a concrete upstream error. -/
theorem C3_post_empty_eq_get_witness :
    POST_handler ⟨some "tok", none⟩ (some ⟨[], []⟩) (.httpError 404) =
      GET_handler ⟨some "tok", none⟩ (.httpError 404) :=
  C3_post_empty_eq_get ⟨some "tok", none⟩ (.httpError 404) (by decide)

/-- C4 counterexample: the client's validation accepts `pageEmptyCat` (cover
present, selection non-null, skills present) while the proxy's field filter
rejects it, so the two filters are not equivalent. -/
theorem C4_counterexample :
    clientValid pageEmptyCat = true ∧
    proxyFieldsOk pageEmptyCat = false ∧
    pageEmptyCat.archived = false ∧
    transformNotionData [pageEmptyCat] ≠ [] := by
  decide

/-- C4 (amended): the client accepts every record the proxy's field filter
accepts, and the client's validation requires exactly a cover file, a
non-null category selection, and a skills entry — it does NOT require the
category name to be non-empty, so the two filters coincide exactly on
records whose category name, when a selection is present, is non-empty. -/
theorem C4_client_vs_proxy (p : NotionPage) :
    (proxyFieldsOk p = true → clientValid p = true) ∧
    (clientValid p = true ↔
      (p.props.cover ≠ [] ∧ p.props.category.isSome = true ∧
       p.props.skills ≠ [])) ∧
    ((∀ s, p.props.category = some s → s.name ≠ "") →
      clientValid p = proxyFieldsOk p) := by
  unfold clientValid proxyFieldsOk
  cases hc : p.props.category with
  | none =>
      simp [hc]
  | some s =>
      refine ⟨?_, ?_, ?_⟩
      · intro h
        rw [Bool.and_eq_true, Bool.and_eq_true] at h
        rcases h with ⟨⟨hcov, _⟩, hsk⟩
        rw [hcov, hsk]
        rfl
      · simp [hc, List.isEmpty_eq_false]
      · intro hname
        have hs : (s.name != "") = true := bne_iff_ne.mpr (hname s rfl)
        cases p.props.cover.isEmpty <;> cases p.props.skills.isEmpty <;>
          simp [hs]

/-- Witness for C4 (amended) at `page1`, whose category name is non-empty:
the client and proxy field filters agree there. -/
theorem C4_client_vs_proxy_witness :
    clientValid page1 = proxyFieldsOk page1 :=
  (C4_client_vs_proxy page1).2.2
    (by
      intro s hs
      have h : some selWeb = some s := hs
      have h2 : selWeb = s := Option.some.inj h
      rw [← h2]
      decide)

/-- C5: For every fetch outcome that is a network error or a non-success
response, the client logs the failure, performs no retry (exactly one fetch
request is issued), and — starting from the component's initial state, whose
category list is empty — the category list is still empty after the fetch
settles; more generally the failure path leaves `categories` untouched and
`loading` false. -/
theorem C5_failed_fetch (st : ClientState) (outcome : FetchOutcome)
    (h : fetchFailed outcome = true) :
    (loadProjectsFromNotion st outcome).state.categories = st.categories ∧
    (loadProjectsFromNotion st outcome).state.loading = false ∧
    (loadProjectsFromNotion st outcome).logs.length = 1 ∧
    (loadProjectsFromNotion st outcome).fetches = 1 ∧
    (loadProjectsFromNotion initialClientState outcome).state.categories = [] := by
  cases outcome with
  | networkError =>
      simp [loadProjectsFromNotion, settleFetch, startFetch, initialClientState]
  | response success results err =>
      cases success with
      | true => simp [fetchFailed] at h
      | false =>
          simp [loadProjectsFromNotion, settleFetch, startFetch,
            initialClientState]

/-- Witness for C5 at a concrete failed outcome (a non-success body). -/
theorem C5_failed_fetch_witness :
    (loadProjectsFromNotion initialClientState
        (.response false [] (some "boom"))).state.categories = [] :=
  (C5_failed_fetch initialClientState (.response false [] (some "boom"))
    (by decide)).2.2.2.2

/-- C6: The overlay state is a single nullable value shared across all
categories: opening image B while image A is open replaces A with B, and
each of the three dismissal triggers (backdrop click, close-button click,
Escape key) sets the state to null, while a click on the overlay's inner
content area does not change it. -/
theorem C6_overlay_state (s : Option String) (a b : String) :
    overlayStep (some a) (.cardImageClick b) = some b ∧
    overlayStep s .backdropClick = none ∧
    overlayStep s .closeButtonClick = none ∧
    overlayStep s (.keydown "Escape") = none ∧
    overlayStep s .innerContentClick = s := by
  refine ⟨rfl, rfl, rfl, ?_, rfl⟩
  simp [overlayStep]

/-- C7: For every request (GET or POST) made while the server-held credential
is absent (unset or empty), the proxy returns HTTP status 500 with a body of
the shape `{success:false, error}` and never contacts the upstream API. -/
theorem C7_missing_token (env : Env) (body : Option PostRequestBody)
    (up : Upstream) (h : tokenPresent env = false) :
    (GET_handler env up).response.status = 500 ∧
    (GET_handler env up).response.success = false ∧
    (GET_handler env up).response.error.isSome = true ∧
    (GET_handler env up).contactedUpstream = false ∧
    (POST_handler env body up).response.status = 500 ∧
    (POST_handler env body up).response.success = false ∧
    (POST_handler env body up).response.error.isSome = true ∧
    (POST_handler env body up).contactedUpstream = false := by
  unfold GET_handler POST_handler
  cases body with
  | none => simp [h]
  | some b => simp [h]

/-- Witness for C7 at an unset credential. -/
theorem C7_missing_token_witness :
    (GET_handler ⟨none, none⟩ (.httpError 404)).response.status = 500 ∧
    (GET_handler ⟨none, none⟩ (.httpError 404)).response.success = false ∧
    (GET_handler ⟨none, none⟩ (.httpError 404)).response.error.isSome = true ∧
    (GET_handler ⟨none, none⟩ (.httpError 404)).contactedUpstream = false ∧
    (POST_handler ⟨none, none⟩ (some ⟨[], []⟩)
        (.httpError 404)).response.status = 500 ∧
    (POST_handler ⟨none, none⟩ (some ⟨[], []⟩)
        (.httpError 404)).response.success = false ∧
    (POST_handler ⟨none, none⟩ (some ⟨[], []⟩)
        (.httpError 404)).response.error.isSome = true ∧
    (POST_handler ⟨none, none⟩ (some ⟨[], []⟩)
        (.httpError 404)).contactedUpstream = false :=
  C7_missing_token ⟨none, none⟩ (some ⟨[], []⟩) (.httpError 404) (by decide)

/-- C8 counterexample: `loading` is initialised with `useState(false)`, so on
the very first render — before any fetch has started or settled — the
component shows the empty state, not the spinner.  This falsifies both
"starts in the loading state (spinner shown)" and "the empty state is shown
only after a fetch has settled". -/
theorem C8_counterexample :
    initialClientState.loading = false ∧
    showsSpinner initialClientState = false ∧
    showsEmptyState initialClientState = true := by
  decide

/-- C8 (amended): the component starts with `loading = false` and zero
categories, so the empty state is shown on the initial render before the
fetch effect runs; once `loadProjectsFromNotion` starts (`setLoading(true)`)
the spinner is shown and the empty state never is while the fetch is
outstanding; each fetch completion sets `loading` back to false, and the
settled view is the empty state iff the category list is empty. -/
theorem C8_view_states (st : ClientState) (outcome : FetchOutcome) :
    showsEmptyState initialClientState = true ∧
    showsSpinner (startFetch st) = true ∧
    showsEmptyState (startFetch st) = false ∧
    (loadProjectsFromNotion st outcome).state.loading = false ∧
    (showsEmptyState (loadProjectsFromNotion st outcome).state = true ↔
      (loadProjectsFromNotion st outcome).state.categories = []) := by
  refine ⟨rfl, rfl, rfl, ?_, ?_⟩
  · cases outcome with
    | networkError => rfl
    | response success results err => cases success <;> rfl
  · cases outcome with
    | networkError =>
        simp [loadProjectsFromNotion, settleFetch, startFetch, showsEmptyState,
          List.isEmpty_iff]
    | response success results err =>
        cases success <;>
          simp [loadProjectsFromNotion, settleFetch, startFetch,
            showsEmptyState, List.isEmpty_iff]

/-- C10: A record whose Link URL is the empty string (or null) is mapped to a
project with no link, rendered as a non-link element whose click opens the
image overlay with the record's image; only a non-empty link URL produces a
hyperlink card. -/
theorem C10_link_mapping (page : NotionPage) (s : Option String) :
    ((page.props.link = none ∨ page.props.link = some "") →
      (projectOf page).link = none ∧
      renderCard (projectOf page) = .imageOpener (projectOf page).image ∧
      cardClick (projectOf page) s = some (projectOf page).image) ∧
    (∀ u, page.props.link = some u → u ≠ "" →
      (projectOf page).link = some u ∧
      renderCard (projectOf page) = .hyperlink u) := by
  cases hl : page.props.link with
  | none =>
      refine ⟨fun _ => ?_, fun u hu => absurd hu (by simp)⟩
      simp [projectOf, renderCard, cardClick, hl]
  | some u =>
      by_cases hu : u = ""
      · subst hu
        refine ⟨fun _ => ?_, fun v hv hne => ?_⟩
        · simp [projectOf, renderCard, cardClick, hl]
        · have : v = "" := by
            have h2 : some "" = some v := hv
            exact (Option.some.inj h2).symm
          exact absurd this hne
      · refine ⟨fun hcontra => ?_, fun v hv hne => ?_⟩
        · rcases hcontra with hc | hc
          · exact absurd hc (by simp)
          · have h2 : some u = some "" := hc
            exact absurd (Option.some.inj h2) hu
        · have h2 : some u = some v := hv
          have huv : u = v := Option.some.inj h2
          subst huv
          constructor
          · simp [projectOf, hl, hu]
          · simp [projectOf, renderCard, hl, hu]

/-- Witness for C10 at `page3` (whose Link URL is the empty string) and
`page1` (whose Link URL is non-empty). -/
theorem C10_link_mapping_witness :
    ((projectOf page3).link = none ∧
     renderCard (projectOf page3) = .imageOpener (projectOf page3).image ∧
     cardClick (projectOf page3) none = some (projectOf page3).image) ∧
    ((projectOf page1).link = some "https://example.com" ∧
     renderCard (projectOf page1) = .hyperlink "https://example.com") :=
  ⟨(C10_link_mapping page3 none).1 (Or.inr rfl),
   (C10_link_mapping page1 none).2 "https://example.com" rfl (by decide)⟩

end MySite
